import Mathlib

/-!
Shallow embedding of the load balancer in src/code/lb.py.

The program is a select()-based TCP dispatcher.  Sockets are modelled as
natural-number identifiers; the mutable module state (server_sockets,
server_finish_times, inputs, client_to_server, server_to_client, plus which
sockets have been closed) is a record, and each arm of the event loop is a
state-transition function.  A Python exception that the loop does not catch
(KeyError, ValueError from int(), OSError from I/O on a closed socket,
ValueError from list.remove on an absent element) terminates the process;
such outcomes are modelled as the Option value none.  time.time() values are
rationals; float('inf') is the extra point ETime.inf of the extended time
type.  Request payloads are modelled after request.decode().strip() as lists
of characters.
-/

/-- Socket identifiers (Python socket objects, used as dict keys). -/
abbrev Socket := Nat

/-- The value stored for each backend socket in the server_sockets dict:
d has keys name and type in the source. -/
structure ServerInfo where
  name : String
  stype : String
deriving DecidableEq, Repr

/-- The SERVERS configuration dict of lb.py in insertion order:
(name, type).  Host and port play no role in the scheduling logic. -/
def SERVERS : List (String × String) :=
  [("serv1", "VIDEO"), ("serv2", "VIDEO"), ("serv3", "MUSIC")]

/-- The TIME_MULTIPLIERS dict of lb.py: (server type, request type) to
multiplier. -/
def TIME_MULTIPLIERS : List ((String × Char) × Nat) :=
  [(("VIDEO", 'M'), 2),
   (("VIDEO", 'V'), 1),
   (("VIDEO", 'P'), 1),
   (("MUSIC", 'M'), 1),
   (("MUSIC", 'V'), 3),
   (("MUSIC", 'P'), 2)]

/-- First-occurrence association-list lookup (Python dict read d[k] /
d.get(k)). -/
def lookupA {α β : Type} [DecidableEq α] : List (α × β) → α → Option β
  | [], _ => none
  | (k, v) :: rest, k' => if k' = k then some v else lookupA rest k'

/-- Association-list write d[k] = v: replace the first binding of k, or
append a new binding when k is absent. -/
def setA {α β : Type} [DecidableEq α] : List (α × β) → α → β → List (α × β)
  | [], k, v => [(k, v)]
  | (k0, v0) :: rest, k, v =>
    if k = k0 then (k0, v) :: rest else (k0, v0) :: setA rest k v

/-- Association-list removal d.pop(k, default): drop the first binding of
k, if any. -/
def removeA {α β : Type} [DecidableEq α] : List (α × β) → α → List (α × β)
  | [], _ => []
  | (k0, v0) :: rest, k =>
    if k = k0 then rest else (k0, v0) :: removeA rest k

/-- TIME_MULTIPLIERS.get((server_type, request_type), 1). -/
def multLookup (server_type : String) (request_type : Char) : Nat :=
  match lookupA TIME_MULTIPLIERS (server_type, request_type) with
  | some m => m
  | none => 1

/-- The numeric value of an ASCII decimal digit. -/
def pyDigit (c : Char) : Nat := c.toNat - '0'.toNat

/-- int(c) on a one-character string: the digit value when c is a decimal
digit, none (ValueError) otherwise. -/
def pyIntChar (c : Char) : Option Nat :=
  if c.isDigit then some (pyDigit c) else none

/-- get_estimated_processing_time of lb.py.  Returns some 0 when the
request is shorter than two characters; otherwise parses request[1] with
int() — none models the ValueError int() raises on a non-digit — and
multiplies by the table multiplier for (server_type, request[0]). -/
def get_estimated_processing_time (server_type : String) (request : List Char) :
    Option Nat :=
  if request.length < 2 then some 0
  else
    match request with
    | request_type :: d :: _ =>
      match pyIntChar d with
      | some base_duration => some (base_duration * multLookup server_type request_type)
      | none => none
    | _ => none

/-- Extended time values: finite wall-clock rationals, or float('inf')
(the initial value of earliest_finish_time in the scheduling loop). -/
inductive ETime where
  | fin : ℚ → ETime
  | inf : ETime
deriving DecidableEq, Repr

/-- max(current_time, stored finish time), as computed on floats. -/
def ETime.max2 (now : ℚ) : ETime → ETime
  | .fin u => .fin (max now u)
  | .inf => .inf

/-- start_time + processing_time, the processing time being finite. -/
def ETime.addCost : ETime → ℚ → ETime
  | .fin t, c => .fin (t + c)
  | .inf, _ => .inf

/-- Strict comparison finish_time < earliest_finish_time on extended
times. -/
def ETime.Lt : ETime → ETime → Prop
  | .fin a, .fin b => a < b
  | .fin _, .inf => True
  | .inf, _ => False

instance : (a b : ETime) → Decidable (ETime.Lt a b)
  | .fin a, .fin b => inferInstanceAs (Decidable (a < b))
  | .fin _, .inf => .isTrue trivial
  | .inf, .fin _ => .isFalse id
  | .inf, .inf => .isFalse id

/-- Non-strict order on extended times, used to state monotonicity of the
tracked finish-time estimates. -/
def ETime.Le : ETime → ETime → Prop
  | .fin a, .fin b => a ≤ b
  | _, .inf => True
  | .inf, .fin _ => False

instance : (a b : ETime) → Decidable (ETime.Le a b)
  | .fin a, .fin b => inferInstanceAs (Decidable (a ≤ b))
  | .fin _, .inf => .isTrue trivial
  | .inf, .inf => .isTrue trivial
  | .inf, .fin _ => .isFalse id

/-- The mutable state of the event loop of lb.py: the server_sockets dict
(socket to name/type, insertion order), the server_finish_times dict — its
key type is Option String because line 161 writes
server_finish_times[best_server_name] where best_server_name can be the
Python value None — the inputs list handed to select(), the two routing
dicts, and the set of sockets on which close() has been called. -/
structure LBState where
  server_sockets : List (Socket × ServerInfo)
  server_finish_times : List (Option String × ETime)
  inputs : List Socket
  client_to_server : List (Socket × Socket)
  server_to_client : List (Socket × Socket)
  closedSocks : List Socket
deriving DecidableEq, Repr

/-- What one client-request event did: forwarded the request to a backend
socket, or dropped the session (closed the client with no backend I/O). -/
inductive SessionOutcome where
  | forwarded : Socket → SessionOutcome
  | dropped : SessionOutcome
deriving DecidableEq, Repr

/-- The scheduling loop of lines 143-158 of lb.py: iterate the SERVERS
configuration in order carrying (best_server_name, earliest_finish_time),
starting from (None, float('inf')).  A server whose socket is absent from
server_sockets is skipped (continue) before any cost computation; otherwise
its stored finish time is read (none models a KeyError) and the cost is
estimated (none models the ValueError of int() on a non-digit).  A strictly
smaller finish time replaces the accumulator, so the first server attains
the minimum on ties. -/
def scheduleLoop (sst : List (Socket × ServerInfo)) (ft : List (Option String × ETime))
    (now : ℚ) (request : List Char) :
    List (String × String) → Option String × ETime → Option (Option String × ETime)
  | [], acc => some acc
  | (name, sty) :: rest, acc =>
    match sst.find? (fun p => p.2.name == name) with
    | none => scheduleLoop sst ft now request rest acc
    | some _ =>
      match lookupA ft (some name) with
      | none => none
      | some prev =>
        match get_estimated_processing_time sty request with
        | none => none
        | some cost =>
          let finish := (ETime.max2 now prev).addCost (cost : ℚ)
          scheduleLoop sst ft now request rest
            (if ETime.Lt finish acc.2 then (some name, finish) else acc)

/-- The scheduling decision taken for one request at wall-clock time now,
on the server_sockets and server_finish_times of a state. -/
def schedule (st : LBState) (now : ℚ) (request : List Char) :
    Option (Option String × ETime) :=
  scheduleLoop st.server_sockets st.server_finish_times now request SERVERS
    (none, ETime.inf)

/-- The client-request arm of the event loop (lines 131-176 of lb.py, for
a non-empty request): run the scheduling loop, commit
server_finish_times[best_server_name] = earliest_finish_time, look the
chosen server's socket up again, and either forward the request to it —
send() on a socket that was closed raises, modelled as none — recording
both routing-dict entries, or, when no socket was found, remove the client
from inputs (list.remove raises when it is absent) and close it. -/
def handleClientRequest (st : LBState) (c : Socket) (request : List Char)
    (now : ℚ) : Option (LBState × SessionOutcome) :=
  match schedule st now request with
  | none => none
  | some (best, earliest) =>
    let ft' := setA st.server_finish_times best earliest
    let chosen : Option Socket :=
      match best with
      | some b => (st.server_sockets.find? (fun p => p.2.name == b)).map Prod.fst
      | none => none
    match chosen with
    | some s =>
      if s ∈ st.closedSocks then none
      else
        some ({ st with
                  server_finish_times := ft',
                  client_to_server := setA st.client_to_server c s,
                  server_to_client := setA st.server_to_client s c },
              SessionOutcome.forwarded s)
    | none =>
      if c ∈ st.inputs then
        some ({ st with
                  server_finish_times := ft',
                  inputs := st.inputs.erase c,
                  closedSocks := c :: st.closedSocks },
              SessionOutcome.dropped)
      else none

/-- The backend-closed-connection arm (lines 125-129 of lb.py): recv on a
backend socket returned b'', so the socket is removed from inputs
(list.remove raises when absent, modelled as none) and closed.  Nothing
else is updated: server_sockets, server_finish_times and server_to_client
keep their entries for the dead backend. -/
def handleServerClosed (st : LBState) (s : Socket) : Option LBState :=
  if s ∈ st.inputs then
    some { st with inputs := st.inputs.erase s, closedSocks := s :: st.closedSocks }
  else none

/-- The backend-response arm (lines 112-124 of lb.py, non-empty response):
pop the waiting client from server_to_client; when one is found, send the
response to it (raises if that client socket was already closed), remove it
from inputs (raises if absent) and close it; when none is found only the
warning is printed.  Returns the client the response was relayed to. -/
def handleServerResponse (st : LBState) (s : Socket) :
    Option (LBState × Option Socket) :=
  match lookupA st.server_to_client s with
  | some c =>
    if c ∈ st.closedSocks then none
    else if c ∈ st.inputs then
      some ({ st with
                server_to_client := removeA st.server_to_client s,
                inputs := st.inputs.erase c,
                closedSocks := c :: st.closedSocks },
            some c)
    else none
  | none => some ({ st with server_to_client := removeA st.server_to_client s }, none)

/-- The state after startup with all three configured backends connected
and free at time T: sockets 0, 1, 2 in configuration order, listening
socket 100, plus two already-accepted client sockets 10 and 11. -/
def initState (T : ℚ) : LBState :=
  { server_sockets := [(0, ⟨"serv1", "VIDEO"⟩), (1, ⟨"serv2", "VIDEO"⟩), (2, ⟨"serv3", "MUSIC"⟩)],
    server_finish_times :=
      [(some "serv1", .fin T), (some "serv2", .fin T), (some "serv3", .fin T)],
    inputs := [100, 0, 1, 2, 10, 11],
    client_to_server := [],
    server_to_client := [],
    closedSocks := [] }

/-- The request string "V5" after decode().strip(). -/
def reqV5 : List Char := ['V', '5']

/-- The request string "VX" after decode().strip(). -/
def reqVX : List Char := ['V', 'X']

/-- The data established by a successful startup: the connected backend
sockets, their initial finish times, and the listening socket, which is
created only after every configured backend has been connected. -/
structure Startup where
  server_sockets : List (Socket × ServerInfo)
  server_finish_times : List (Option String × ETime)
  listeningSocket : Socket
deriving DecidableEq, Repr

/-- The backend-connect loop of lines 61-72 of lb.py: connect to each
configured server in order, allocating socket identifiers k, k+1, ...; on
the first failed connect, main returns at once (none).  reach says whether
connect() to the named server succeeds; tms is the time.time() value
recorded for it at connect time. -/
def connectLoop (reach : String → Bool) (tms : String → ℚ) :
    List (String × String) → Nat →
    Option (List (Socket × ServerInfo) × List (Option String × ETime))
  | [], _ => some ([], [])
  | (name, ty) :: rest, k =>
    if reach name then
      match connectLoop reach tms rest (k + 1) with
      | some (ss, ft) => some ((k, ⟨name, ty⟩) :: ss, (some name, .fin (tms name)) :: ft)
      | none => none
    else none

/-- Steps 1 and 2 of main (lines 56-79 of lb.py): connect every configured
backend, and only then create, bind and listen on the listening socket
(modelled with identifier 100).  none means main returned before the
listening socket existed, so no client is ever accepted. -/
def mainStartup (reach : String → Bool) (tms : String → ℚ) : Option Startup :=
  match connectLoop reach tms SERVERS 0 with
  | some (ss, ft) => some ⟨ss, ft, 100⟩
  | none => none

/-- A state in which backend serv1 (socket 0) owes a response to client 20
(one in-flight request), serv2 and serv3 are loaded until time 100, and a
second client 21 is also connected. -/
def c9State : LBState :=
  { server_sockets := [(0, ⟨"serv1", "VIDEO"⟩), (1, ⟨"serv2", "VIDEO"⟩), (2, ⟨"serv3", "MUSIC"⟩)],
    server_finish_times :=
      [(some "serv1", .fin 0), (some "serv2", .fin 100), (some "serv3", .fin 100)],
    inputs := [100, 0, 1, 2, 20, 21],
    client_to_server := [(20, 0)],
    server_to_client := [(0, 20)],
    closedSocks := [] }

/-- Run a sequence of client-request events (client socket, request,
arrival time) through the event loop; none as soon as one of them raises
an uncaught exception (the process dies). -/
def runRequests : LBState → List (Socket × List Char × ℚ) → Option LBState
  | st, [] => some st
  | st, (c, request, now) :: rest =>
    match handleClientRequest st c request now with
    | none => none
    | some (st', _) => runRequests st' rest

/-- A state whose server_sockets dict is empty (no backend candidate
left), with the listening socket and one connected client. -/
def emptyPoolState : LBState :=
  { server_sockets := [], server_finish_times := [], inputs := [100, 10],
    client_to_server := [], server_to_client := [], closedSocks := [] }

/-- Two "V5" requests from clients 10 and 11, both arriving at time 0. -/
def c2Events : List (Socket × List Char × ℚ) := [(10, reqV5, 0), (11, reqV5, 0)]

/-- The state reached from initState 0 after the two commits of
c2Events. -/
def c2Final : LBState :=
  { server_sockets := [(0, ⟨"serv1", "VIDEO"⟩), (1, ⟨"serv2", "VIDEO"⟩), (2, ⟨"serv3", "MUSIC"⟩)],
    server_finish_times :=
      [(some "serv1", .fin 5), (some "serv2", .fin 5), (some "serv3", .fin 0)],
    inputs := [100, 0, 1, 2, 10, 11],
    client_to_server := [(10, 0), (11, 1)],
    server_to_client := [(0, 10), (1, 11)],
    closedSocks := [] }

/-- C1: the claim that a retired backend is permanently excluded from the
scheduler's candidates fails on the code.  After serv1's connection closes
(the retirement event of lines 125-129), its socket is closed and removed
from inputs but stays in server_sockets, so the scheduling loop still
iterates over serv1 and — all estimates being equal — selects it; the
subsequent send() on the closed socket is an uncaught exception (none)
that kills the event loop. -/
theorem c1_retired_backend_still_candidate :
    (handleServerClosed (initState 0) 0).map
        (fun st => (st.closedSocks.contains 0,
                    st.server_sockets.any (fun p => p.2.name == "serv1")))
      = some (true, true)
    ∧ (handleServerClosed (initState 0) 0).bind (fun st => some (schedule st 0 reqV5))
      = some (some (some "serv1", ETime.fin 5))
    ∧ (handleServerClosed (initState 0) 0).bind
        (fun st => handleClientRequest st 10 reqV5 0) = none := by
  simp +decide [handleServerClosed, handleClientRequest, handleServerResponse,
    initState, c9State, schedule, scheduleLoop, SERVERS, lookupA, setA, removeA,
    get_estimated_processing_time, multLookup, TIME_MULTIPLIERS, pyIntChar, pyDigit,
    ETime.max2, ETime.addCost, ETime.Lt, reqV5, List.find?, Option.bind]

/-- C4: the claim that a backend I/O failure retires the backend, closes
that session's client, and never terminates the dispatcher fails on the
code.  After client 10's request is forwarded to serv1 and serv1's read
then fails (recv returns empty), client 10 stays in inputs and is never
closed, serv1 stays in server_sockets with its stale server_to_client
entry, and a later request that selects serv1 (at time 10, where serv1
ties first) hits the closed socket: an uncaught exception (none) that
terminates the process. -/
theorem c4_backend_failure_not_isolated :
    (handleClientRequest (initState 0) 10 reqV5 0).map Prod.snd
      = some (SessionOutcome.forwarded 0)
    ∧ ((handleClientRequest (initState 0) 10 reqV5 0).bind
        (fun p => handleServerClosed p.1 0)).map
        (fun st2 => (st2.inputs.contains 10, st2.closedSocks.contains 10,
                     st2.server_sockets.any (fun q => q.2.name == "serv1"),
                     lookupA st2.server_to_client 0))
      = some (true, false, true, some 10)
    ∧ ((handleClientRequest (initState 0) 10 reqV5 0).bind
        (fun p => handleServerClosed p.1 0)).bind
        (fun st2 => handleClientRequest st2 11 reqV5 10) = none := by
  simp +decide [handleServerClosed, handleClientRequest, handleServerResponse,
    initState, c9State, schedule, scheduleLoop, SERVERS, lookupA, setA, removeA,
    get_estimated_processing_time, multLookup, TIME_MULTIPLIERS, pyIntChar, pyDigit,
    ETime.max2, ETime.addCost, ETime.Lt, reqV5, List.find?, Option.bind]
  norm_num +decide [max_def]

/-- C8: a request of length at least two whose second character is not a
decimal digit, such as "VX", makes int(request[1]) raise ValueError inside
get_estimated_processing_time (modelled as none); the exception is not
caught anywhere in the event loop, so handling such a client request
crashes the dispatcher (none). -/
theorem c8_nondigit_request_crashes :
    'X'.isDigit = false
    ∧ reqVX.length = 2
    ∧ get_estimated_processing_time "VIDEO" reqVX = none
    ∧ get_estimated_processing_time "MUSIC" reqVX = none
    ∧ handleClientRequest (initState 0) 10 reqVX 0 = none := by
  decide

/-- C9: scheduling a second request to a backend whose previous response
is still pending overwrites the server_to_client entry.  In c9State,
socket 0 (serv1) owes client 20 a response; client 21's request "V5" is
nevertheless scheduled to serv1, after which server_to_client maps socket
0 to client 21, while client 20 remains registered in inputs and open.
When serv1's response then arrives, it is relayed to client 21; client 20
keeps its open, registered socket and no routing entry remains for it. -/
theorem c9_pending_response_overwritten :
    (handleClientRequest c9State 21 reqV5 0).map
        (fun p => (p.2, lookupA p.1.server_to_client 0,
                   p.1.inputs.contains 20, p.1.closedSocks.contains 20))
      = some (SessionOutcome.forwarded 0, some 21, true, false)
    ∧ (handleClientRequest c9State 21 reqV5 0).bind
        (fun p => (handleServerResponse p.1 0).map
          (fun q => (q.2, lookupA q.1.server_to_client 0,
                     q.1.inputs.contains 20, q.1.closedSocks.contains 20)))
      = some (some 21, none, true, false) := by
  simp +decide [handleServerClosed, handleClientRequest, handleServerResponse,
    initState, c9State, schedule, scheduleLoop, SERVERS, lookupA, setA, removeA,
    get_estimated_processing_time, multLookup, TIME_MULTIPLIERS, pyIntChar, pyDigit,
    ETime.max2, ETime.addCost, ETime.Lt, reqV5, List.find?, Option.bind]
  norm_num +decide [max_def]
  exact ⟨_, _, ⟨rfl, rfl⟩, rfl, by decide, by decide, by decide⟩

/-- Reading back through a dict write: the written key returns the new
value, any other key is unaffected. -/
theorem lookupA_setA {α β : Type} [DecidableEq α] (m : List (α × β)) (k k' : α) (v : β) :
    lookupA (setA m k v) k' = if k' = k then some v else lookupA m k' := by
  induction m with
  | nil => simp [setA, lookupA]
  | cons p rest ih =>
    obtain ⟨k0, v0⟩ := p
    by_cases hk : k = k0
    · subst hk
      by_cases hk' : k' = k <;> simp [setA, lookupA, hk']
    · by_cases hk' : k' = k0
      · subst hk'
        have hk2 : ¬ k' = k := fun h => hk h.symm
        simp [setA, lookupA, hk, hk2]
      · simp [setA, lookupA, hk, hk', ih]

theorem ETime.Le.refl (a : ETime) : ETime.Le a a := by
  cases a <;> simp [ETime.Le]

theorem ETime.Le.trans {a b c : ETime} (h1 : ETime.Le a b) (h2 : ETime.Le b c) :
    ETime.Le a c := by
  cases a <;> cases b <;> cases c <;> simp_all [ETime.Le]
  linarith

/-- The committed value max(now, prev) + cost is never below the previous
estimate prev, the cost being a natural number. -/
theorem ETime.le_commit (prev : ETime) (now : ℚ) (cost : ℕ) :
    ETime.Le prev ((ETime.max2 now prev).addCost (cost : ℚ)) := by
  cases prev with
  | inf => simp [ETime.max2, ETime.addCost, ETime.Le]
  | fin u =>
    simp only [ETime.max2, ETime.addCost, ETime.Le]
    have h1 : u ≤ max now u := le_max_right now u
    have h2 : (0:ℚ) ≤ (cost:ℚ) := Nat.cast_nonneg cost
    linarith

/-- Whenever the scheduling loop elects a best server, the
earliest_finish_time it carries for it is max(now, stored) + cost, hence
at least the stored estimate of that server. -/
theorem scheduleLoop_commit_le (sst : List (Socket × ServerInfo))
    (ft : List (Option String × ETime)) (now : ℚ) (request : List Char)
    (l : List (String × String)) :
    ∀ (acc : Option String × ETime),
      (∀ b0, acc.1 = some b0 → ∃ prev, lookupA ft (some b0) = some prev ∧ ETime.Le prev acc.2) →
      ∀ b e, scheduleLoop sst ft now request l acc = some (some b, e) →
        ∃ prev, lookupA ft (some b) = some prev ∧ ETime.Le prev e := by
  induction l with
  | nil =>
    intro acc hacc b e h
    simp only [scheduleLoop, Option.some.injEq] at h
    have h1 : acc.1 = some b := by rw [h]
    have h2 : acc.2 = e := by rw [h]
    obtain ⟨prev, hp, hle⟩ := hacc b h1
    exact ⟨prev, hp, h2 ▸ hle⟩
  | cons hd tl ih =>
    intro acc hacc b e h
    obtain ⟨name, sty⟩ := hd
    rw [scheduleLoop] at h
    cases hfind : sst.find? (fun p => p.2.name == name) with
    | none =>
      rw [hfind] at h
      exact ih acc hacc b e h
    | some w =>
      rw [hfind] at h
      cases hft : lookupA ft (some name) with
      | none => rw [hft] at h; simp at h
      | some prev0 =>
        rw [hft] at h
        cases hest : get_estimated_processing_time sty request with
        | none => rw [hest] at h; simp at h
        | some cost =>
          rw [hest] at h
          simp only at h
          refine ih _ ?_ b e h
          intro b0 hb0
          by_cases hlt : ETime.Lt ((ETime.max2 now prev0).addCost (cost : ℚ)) acc.2
          · rw [if_pos hlt] at hb0 ⊢
            simp only [Option.some.injEq] at hb0
            subst hb0
            exact ⟨prev0, hft, ETime.le_commit prev0 now cost⟩
          · rw [if_neg hlt] at hb0 ⊢
            exact hacc b0 hb0

/-- One client-request step can only push a tracked finish-time estimate
forward: the chosen server's entry is overwritten with
max(now, previous) + cost and every other entry is untouched. -/
theorem handleClientRequest_ft_mono (st : LBState) (c : Socket) (request : List Char)
    (now : ℚ) (st' : LBState) (out : SessionOutcome)
    (h : handleClientRequest st c request now = some (st', out))
    (name : String) (prev : ETime)
    (h1 : lookupA st.server_finish_times (some name) = some prev) :
    ∃ v', lookupA st'.server_finish_times (some name) = some v' ∧ ETime.Le prev v' := by
  rw [handleClientRequest] at h
  cases hs : schedule st now request with
  | none => rw [hs] at h; simp at h
  | some be =>
    obtain ⟨best, earliest⟩ := be
    rw [hs] at h
    simp only at h
    have hft : st'.server_finish_times = setA st.server_finish_times best earliest := by
      split at h
      · split at h
        · simp at h
        · simp only [Option.some.injEq, Prod.mk.injEq] at h
          obtain ⟨h3, _⟩ := h
          rw [← h3]
      · split at h
        · simp only [Option.some.injEq, Prod.mk.injEq] at h
          obtain ⟨h3, _⟩ := h
          rw [← h3]
        · simp at h
    cases hbest : best with
    | none =>
      subst hbest
      rw [hft, lookupA_setA]
      simp only [reduceCtorEq, if_false]
      exact ⟨prev, h1, ETime.Le.refl prev⟩
    | some b =>
      subst hbest
      rw [hft, lookupA_setA]
      by_cases hnb : name = b
      · subst hnb
        simp only [if_pos rfl]
        have hinit : ∀ b0 : String,
            (Prod.mk (α := Option String) (β := ETime) none ETime.inf).1 = some b0 →
            ∃ prev0, lookupA st.server_finish_times (some b0) = some prev0 ∧
              ETime.Le prev0 (Prod.mk (α := Option String) (β := ETime) none ETime.inf).2 := by
          intro b0 hb0
          simp at hb0
        obtain ⟨prev0, hp0, hle0⟩ :=
          scheduleLoop_commit_le st.server_sockets st.server_finish_times now request
            SERVERS (none, ETime.inf) hinit name earliest hs
        rw [h1] at hp0
        injection hp0 with hp0'
        exact ⟨earliest, rfl, hp0' ▸ hle0⟩
      · have hne : ¬ (some name = some b) := by simp [hnb]
        rw [if_neg hne]
        exact ⟨prev, h1, ETime.Le.refl prev⟩

/-- C2: over every sequence of client-request scheduling decisions, each
backend's tracked finish-time estimate is non-decreasing: the only write
line 161 performs is server_finish_times[best] = max(now, current) + cost
with cost a natural number — which is at least the current estimate — and
entries of servers not chosen are untouched. -/
theorem c2_finish_times_monotone (evs : List (Socket × List Char × ℚ))
    (st st' : LBState) (h : runRequests st evs = some st')
    (name : String) (prev v' : ETime)
    (h1 : lookupA st.server_finish_times (some name) = some prev)
    (h2 : lookupA st'.server_finish_times (some name) = some v') :
    ETime.Le prev v' := by
  induction evs generalizing st prev with
  | nil =>
    simp only [runRequests, Option.some.injEq] at h
    subst h
    rw [h1] at h2
    injection h2 with h3
    exact h3 ▸ ETime.Le.refl prev
  | cons ev rest ih =>
    obtain ⟨c, request, now⟩ := ev
    rw [runRequests] at h
    cases hstep : handleClientRequest st c request now with
    | none => rw [hstep] at h; simp at h
    | some p =>
      obtain ⟨st1, out⟩ := p
      rw [hstep] at h
      obtain ⟨vm, hvm, hle1⟩ :=
        handleClientRequest_ft_mono st c request now st1 out hstep name prev h1
      exact ETime.Le.trans hle1 (ih st1 h vm hvm)

/-- Instantiation of C2: two "V5" requests at time 0 move serv1's
estimate from 0 to 5, and 0 ≤ 5. -/
theorem c2_finish_times_monotone_witness :
    runRequests (initState 0) c2Events = some c2Final
    ∧ lookupA (initState 0).server_finish_times (some "serv1") = some (ETime.fin 0)
    ∧ lookupA c2Final.server_finish_times (some "serv1") = some (ETime.fin 5)
    ∧ ETime.Le (ETime.fin 0) (ETime.fin 5) := by
  have hrun : runRequests (initState 0) c2Events = some c2Final := by
    simp +decide [runRequests, c2Events, c2Final, handleClientRequest, initState, schedule,
      scheduleLoop, SERVERS, lookupA, setA, get_estimated_processing_time, multLookup,
      TIME_MULTIPLIERS, pyIntChar, pyDigit, ETime.max2, ETime.addCost, ETime.Lt, reqV5,
      List.find?]
  exact ⟨hrun, by decide, by decide,
    c2_finish_times_monotone c2Events (initState 0) c2Final hrun "serv1"
      (ETime.fin 0) (ETime.fin 5) (by decide) (by decide)⟩

/-- C3: when the server_sockets dict is empty (no backend candidate), a
client request is handled without a fatal error: every configuration
entry is skipped (continue) before any cost computation, so
best_server_name stays None and earliest_finish_time stays inf, no
chosen socket is found, and the session router closes the client
connection — removing it from inputs — with no backend I/O; the only
other effect is the None-keyed finish-time write of line 161. -/
theorem c3_no_backend_drops_request (st : LBState) (c : Socket) (request : List Char)
    (now : ℚ) (hs : st.server_sockets = []) (hc : c ∈ st.inputs) :
    handleClientRequest st c request now =
      some ({ st with server_finish_times := setA st.server_finish_times none ETime.inf,
                      inputs := st.inputs.erase c,
                      closedSocks := c :: st.closedSocks },
            SessionOutcome.dropped) := by
  simp [handleClientRequest, schedule, scheduleLoop, SERVERS, hs, hc, List.find?]

/-- Instantiation of C3 at a concrete empty-pool state: client 10's
request is dropped, its socket closed, and no request was forwarded. -/
theorem c3_no_backend_drops_request_witness :
    emptyPoolState.server_sockets = [] ∧ 10 ∈ emptyPoolState.inputs ∧
    handleClientRequest emptyPoolState 10 reqV5 0 =
      some ({ emptyPoolState with
                server_finish_times := [(none, ETime.inf)],
                inputs := [100],
                closedSocks := [10] }, SessionOutcome.dropped) :=
  ⟨rfl, by decide, by
    have h := c3_no_backend_drops_request emptyPoolState 10 reqV5 0 rfl (by decide)
    simpa [emptyPoolState, setA] using h⟩

/-- C5: with backends serv1 (VIDEO), serv2 (VIDEO), serv3 (MUSIC) in
configuration order and all free at time T, the request "V5" costs
5 · 1 = 5 on a VIDEO backend and 5 · 3 = 15 on the MUSIC backend, so a
VIDEO backend wins; between the equal-finish serv1 and serv2 the first in
configuration order, serv1, is chosen, because only a strictly smaller
finish time replaces the running best. -/
theorem c5_video_over_music_first_wins_tie (T : ℚ) :
    get_estimated_processing_time "VIDEO" reqV5 = some 5
    ∧ get_estimated_processing_time "MUSIC" reqV5 = some 15
    ∧ schedule (initState T) T reqV5 = some (some "serv1", ETime.fin (T + 5)) := by
  refine ⟨by decide, by decide, ?_⟩
  simp +decide [initState, schedule, scheduleLoop, SERVERS, lookupA,
    get_estimated_processing_time, multLookup, TIME_MULTIPLIERS, pyIntChar, pyDigit,
    ETime.max2, ETime.addCost, ETime.Lt, reqV5, List.find?]

/-- Instantiation of C5 at T = 0. -/
theorem c5_video_over_music_first_wins_tie_witness :
    get_estimated_processing_time "VIDEO" reqV5 = some 5
    ∧ get_estimated_processing_time "MUSIC" reqV5 = some 15
    ∧ schedule (initState 0) 0 reqV5 = some (some "serv1", ETime.fin (0 + 5)) :=
  c5_video_over_music_first_wins_tie 0

/-- C6: after "V5" is committed to serv1 at time T (estimate T + 5), a
second "V5" also arriving at time T is scheduled to serv2: the first step
forwards to socket 0 and commits serv1's estimate T + 5, and the second
step, seeing that committed estimate (serv1 would now finish at T + 10),
forwards to socket 1 — serv2, finish T + 5 — so each commit is visible to
the next scheduling decision. -/
theorem c6_commit_visible_to_next_decision (T : ℚ) :
    (handleClientRequest (initState T) 10 reqV5 T).bind
      (fun p => (handleClientRequest p.1 11 reqV5 T).map
        (fun q => (p.2, lookupA p.1.server_finish_times (some "serv1"), q.2)))
    = some (SessionOutcome.forwarded 0, some (ETime.fin (T + 5)),
        SessionOutcome.forwarded 1) := by
  simp +decide [handleClientRequest, initState, schedule, scheduleLoop, SERVERS, lookupA,
    setA, get_estimated_processing_time, multLookup, TIME_MULTIPLIERS, pyIntChar, pyDigit,
    ETime.max2, ETime.addCost, ETime.Lt, reqV5, List.find?, Option.bind]

/-- Instantiation of C6 at T = 0. -/
theorem c6_commit_visible_to_next_decision_witness :
    (handleClientRequest (initState 0) 10 reqV5 0).bind
      (fun p => (handleClientRequest p.1 11 reqV5 0).map
        (fun q => (p.2, lookupA p.1.server_finish_times (some "serv1"), q.2)))
    = some (SessionOutcome.forwarded 0, some (ETime.fin (0 + 5)),
        SessionOutcome.forwarded 1) :=
  c6_commit_visible_to_next_decision 0

/-- C7: the estimated duration is 0 for any request shorter than two
characters (a defined degenerate case, not an error); for a request
c :: d :: rest whose second character d is a decimal digit it is the
digit's value times the multiplier for (backend class, first character);
and the multiplier defaults to 1 whenever the pair is absent from
TIME_MULTIPLIERS. -/
theorem c7_estimate_formula (server_type : String) (request : List Char) :
    (request.length < 2 → get_estimated_processing_time server_type request = some 0)
    ∧ (∀ c d rest, request = c :: d :: rest → d.isDigit = true →
        get_estimated_processing_time server_type request
          = some (pyDigit d * multLookup server_type c))
    ∧ (∀ c, lookupA TIME_MULTIPLIERS (server_type, c) = none →
        multLookup server_type c = 1) := by
  refine ⟨fun h => ?_, fun c d rest hreq hd => ?_, fun c h => ?_⟩
  · simp [get_estimated_processing_time, h]
  · subst hreq
    simp [get_estimated_processing_time, pyIntChar, hd]
  · simp [multLookup, h]

/-- Instantiations of C7: a one-character request costs 0; "V5" on MUSIC
costs 5 · 3 = 15; and the pair (VIDEO, Z), absent from the table, gets
multiplier 1. -/
theorem c7_estimate_formula_witness :
    get_estimated_processing_time "VIDEO" ['V'] = some 0
    ∧ get_estimated_processing_time "MUSIC" reqV5 = some (pyDigit '5' * multLookup "MUSIC" 'V')
    ∧ pyDigit '5' * multLookup "MUSIC" 'V' = 15
    ∧ multLookup "VIDEO" 'Z' = 1 :=
  ⟨(c7_estimate_formula "VIDEO" ['V']).1 (by decide),
   (c7_estimate_formula "MUSIC" reqV5).2.1 'V' '5' [] rfl (by decide),
   by decide,
   (c7_estimate_formula "VIDEO" reqV5).2.2 'Z' (by decide)⟩

/-- C10: startup publishes a listening socket — so clients can be
accepted — exactly when the connection to every configured backend
succeeds: one failed connect makes main return before the listening
socket is created, even when the other backends are reachable. -/
theorem c10_startup_requires_all_backends (reach : String → Bool) (tms : String → ℚ) :
    (mainStartup reach tms).isSome = true ↔ ∀ p ∈ SERVERS, reach p.1 = true := by
  cases h1 : reach "serv1" <;> cases h2 : reach "serv2" <;> cases h3 : reach "serv3" <;>
    simp [mainStartup, connectLoop, SERVERS, h1, h2, h3]

/-- Instantiation of C10: with serv2 and serv3 reachable but serv1 not,
startup fails and no listening socket is ever created. -/
theorem c10_startup_requires_all_backends_witness :
    (mainStartup (fun n => decide (n ≠ "serv1")) (fun _ => 0)).isSome = false
    ∧ decide (("serv2" : String) ≠ "serv1") = true
    ∧ decide (("serv3" : String) ≠ "serv1") = true := by
  refine ⟨?_, by decide, by decide⟩
  rw [Bool.eq_false_iff]
  intro hcontra
  have h := (c10_startup_requires_all_backends (fun n => decide (n ≠ "serv1")) (fun _ => 0)).mp
      hcontra ("serv1", "VIDEO") (by decide)
  simp at h
